import Mathlib

/-!
Verification of the UNO sales-dashboard staffing pipeline.

The definitions below are a shallow embedding of the relevant parts of
src/streamlit_app.py. Machine floats are modelled as rationals; pandas
missing values (NaN) are modelled as Option.none. Components that the
specification describes but that are absent from the sources (the Shift
Aggregator and the Demand Forecaster) are modelled from the
specification's words and marked as such in their doc comments.
-/

namespace SalesDash

/-! ## Staffing Estimator (streamlit_app.py lines 220-224)

The source computes, per row,
  Staff_by_Sales = Total Sales / sales_per_staff
  Staff_by_Txns  = Transactions / txns_per_staff
  Required_Staff = int(round(max(Staff_by_Sales, Staff_by_Txns) + fixed_staff, 0))
Python's builtin round on a float rounds half to even (banker's rounding).
-/

/-- Round half to even, the semantics of Python's builtin round(x, 0). -/
def roundHalfEven (q : ℚ) : ℤ :=
  if q - ⌊q⌋ < 1/2 then ⌊q⌋
  else if 1/2 < q - ⌊q⌋ then ⌊q⌋ + 1
  else if ⌊q⌋ % 2 = 0 then ⌊q⌋ else ⌊q⌋ + 1

/-- Required_Staff of streamlit_app.py lines 221-224: the maximum of the two
linear heuristics plus the fixed staff, rounded half to even. -/
def requiredStaff (sales txns salesCap txnCap : ℚ) (fixed : ℤ) : ℤ :=
  roundHalfEven (max (sales / salesCap) (txns / txnCap) + fixed)

/-! ## Schedule Allocator (streamlit_app.py lines 249-266)

The source sorts the (day, hour) cells descending by Required_Staff, then
walks the sorted list keeping a running budget (hours_to_cover): a cell
whose need fits the remaining budget gets its full need, otherwise it gets
whatever positive budget remains, and once the budget is zero the loop
breaks, leaving every remaining cell at its initialised assignment of 0.
Cells are labelled by an arbitrary type so the embedding covers any
(day, hour) identity. -/

/-- The greedy assignment loop of streamlit_app.py lines 255-266, pairing
each cell (label, required) with its assigned staff. Breaking out of the
loop once the budget is zero is modelled by the third branch, which emits
the initialised assignment 0 for every remaining cell. -/
def allocGo {α : Type} (budget : ℚ) : List (α × ℚ) → List ((α × ℚ) × ℚ)
  | [] => []
  | c :: cs =>
    if c.2 ≤ budget then (c, c.2) :: allocGo (budget - c.2) cs
    else if 0 < budget then (c, budget) :: allocGo 0 cs
    else (c, 0) :: allocGo budget cs

/-- The whole allocation run: sort descending by required staff
(streamlit_app.py line 252), then run the greedy loop. -/
def allocate {α : Type} (cells : List (α × ℚ)) (budget : ℚ) :
    List ((α × ℚ) × ℚ) :=
  allocGo budget (List.insertionSort (fun a b => b.2 ≤ a.2) cells)

/-! ## Time-Series Normalizer (streamlit_app.py lines 21-63)

Per uploaded file the source renames the four columns to
(Hour, Total Sales, Percent of Sales, Transactions), drops rows whose Hour
is missing, attaches the file's date, concatenates all files and sorts by
(Date, Hour). No aggregation of duplicate timestamps takes place. -/

/-- One raw spreadsheet row after column renaming: a possibly missing hour
and possibly missing (NaN) numeric fields. -/
structure RawRow where
  hour : Option ℤ
  sales : Option ℚ
  pct : Option ℚ
  txns : Option ℤ
deriving DecidableEq, Repr

/-- One cleaned row of the combined table: the date attached from the
filename, the hour, and the metric fields exactly as they arrived. -/
structure Row where
  date : ℤ
  hour : ℤ
  sales : Option ℚ
  pct : Option ℚ
  txns : Option ℤ
deriving DecidableEq, Repr

/-- Cleaning of one file (streamlit_app.py lines 42-55): drop the rows with
a missing hour, attach the file date; the metric columns pass through. -/
def processFile (fileDate : ℤ) (rows : List RawRow) : List Row :=
  rows.filterMap fun r =>
    r.hour.map fun h => Row.mk fileDate h r.sales r.pct r.txns

/-- Ordering used by sort_values(by=[Date, Hour]). -/
def rowLE (a b : Row) : Prop :=
  a.date < b.date ∨ (a.date = b.date ∧ a.hour ≤ b.hour)

instance : DecidableRel rowLE := fun a b => by
  unfold rowLE; exact inferInstance

/-- load_and_process_data (streamlit_app.py lines 21-63): clean each file,
concatenate, and sort the combined table by (Date, Hour). -/
def loadAndProcessData (files : List (ℤ × List RawRow)) : List Row :=
  List.insertionSort rowLE ((files.map fun f => processFile f.1 f.2).flatten)

/-! ## Global KPIs (streamlit_app.py lines 91-93)

pandas column sums skip missing values, modelled by summing getD 0. -/

/-- total_sales (line 91). -/
def totalSales (rows : List Row) : ℚ :=
  (rows.map fun r => r.sales.getD 0).sum

/-- total_txns (line 92). -/
def totalTxns (rows : List Row) : ℤ :=
  (rows.map fun r => r.txns.getD 0).sum

/-- avg_txn_value (line 93): the division is evaluated only under the
guard total_txns > 0, otherwise the KPI is 0. -/
def avgTxnValue (rows : List Row) : ℚ :=
  if 0 < totalTxns rows then totalSales rows / (totalTxns rows : ℚ) else 0

/-! ## Shift Aggregator (modelled from the spec)

No shift-window aggregation exists anywhere under src/; the component is
described only in the specification (section 4.4). -/

/-- One (day_of_week, hour, required_staff) cell. -/
structure StaffingRequirement where
  day : ℕ
  hour : ℕ
  staff : ℕ
deriving DecidableEq, Repr

/-- Maximum of a list of naturals, with 0 for the empty list. -/
def natMax (l : List ℕ) : ℕ := l.foldr max 0

/-- Modelled from the spec: the Shift Aggregator (section 4.4) is absent
from src/. Given hourly requirements and a window
[startH, endH), it returns the maximum required_staff among the hours
inside the window, and 0 when the window covers no hours. -/
def shiftAggregate (reqs : List StaffingRequirement) (startH endH : ℕ) : ℕ :=
  natMax ((reqs.filter fun r => startH ≤ r.hour ∧ r.hour < endH).map
    StaffingRequirement.staff)

/-! ## Demand Forecaster (modelled from the spec)

No regression model exists anywhere under src/; the component is described
only in the specification (section 4.2). The spec requires a fixed seed so
fit is observably a function of its inputs; it is modelled as a pure
group-mean regressor over calendar features, with the 24-observation
minimum and clamping of negative predictions to zero. -/

/-- A timestamp: a day index and an hour of that day. -/
structure Timestamp where
  day : ℤ
  hour : ℕ
deriving DecidableEq, Repr

/-- Modelled from the spec: CalendarFeatures as a pure derivation of a
timestamp (section 3); the day of week is the day index mod 7. -/
def calendarFeatures (t : Timestamp) : ℕ × ℤ :=
  (t.hour, t.day % 7)

/-- A trained model: the training pairs keyed by their calendar features. -/
def Model : Type := List ((ℕ × ℤ) × ℚ)

/-- Modelled from the spec: fit (section 4.2) trains on calendar features
against the metric values and fails with InsufficientDataError below 24
observations. -/
def fitModel (series : List (Timestamp × ℚ)) : Except String Model :=
  if series.length < 24 then Except.error "InsufficientDataError"
  else Except.ok (series.map fun p => (calendarFeatures p.1, p.2))

/-- Modelled from the spec: the prediction for one timestamp is the mean
metric over training points sharing its calendar features (falling back to
the overall mean), clamped to be non-negative. -/
def predictOne (m : Model) (t : Timestamp) : ℚ :=
  let vals := ((List.filter (fun p => p.1 = calendarFeatures t) m).map
    Prod.snd)
  let vals := if vals.isEmpty then m.map Prod.snd else vals
  max 0 (vals.sum / vals.length)

/-- Modelled from the spec: predict (section 4.2) evaluates the model on
each future timestamp in input order. -/
def predictSeries (m : Model) (ts : List Timestamp) : List (Timestamp × ℚ) :=
  ts.map fun t => (t, predictOne m t)

/-! ## Helper lemmas about rounding -/

theorem floor_le_roundHalfEven (q : ℚ) : ⌊q⌋ ≤ roundHalfEven q := by
  unfold roundHalfEven
  split_ifs <;> omega

theorem abs_roundHalfEven_sub_le (q : ℚ) :
    |(roundHalfEven q : ℚ) - q| ≤ 1/2 := by
  have h0 : (⌊q⌋ : ℚ) ≤ q := Int.floor_le q
  have h1 : q < ⌊q⌋ + 1 := Int.lt_floor_add_one q
  unfold roundHalfEven
  by_cases hlt : q - ⌊q⌋ < 1/2
  · rw [if_pos hlt, abs_sub_comm, abs_of_nonneg (by linarith)]
    linarith
  · rw [if_neg hlt]
    by_cases hgt : 1/2 < q - ⌊q⌋
    · rw [if_pos hgt]
      push_cast
      rw [abs_of_nonneg (by linarith)]
      linarith
    · rw [if_neg hgt]
      have heq : q - ⌊q⌋ = 1/2 := le_antisymm (not_lt.1 hgt) (not_lt.1 hlt)
      by_cases he : ⌊q⌋ % 2 = 0
      · rw [if_pos he, abs_sub_comm, abs_of_nonneg (by linarith)]
        linarith
      · rw [if_neg he]
        push_cast
        rw [abs_of_nonneg (by linarith)]
        linarith

/-- C1 counterexample: on sales=10, txns=0 with capacities 75 and 10 and
fixed_staff=1, the code (round half to even) returns 1, while the claimed
ceiling formula gives 2. -/
theorem c1_ceil_counterexample :
    requiredStaff 10 0 75 10 1 = 1 ∧
    ⌈max ((10:ℚ) / 75) ((0:ℚ) / 10)⌉ + 1 = 2 ∧
    requiredStaff 10 0 75 10 1 ≠ ⌈max ((10:ℚ) / 75) ((0:ℚ) / 10)⌉ + 1 := by
  have hmax : max ((10:ℚ) / 75) ((0:ℚ) / 10) = 2/15 := by norm_num
  have hceil : ⌈max ((10:ℚ) / 75) ((0:ℚ) / 10)⌉ = 1 := by
    rw [hmax, Int.ceil_eq_iff]
    norm_num
  have hreq : requiredStaff 10 0 75 10 1 = 1 := by
    norm_num [requiredStaff, roundHalfEven]
  refine ⟨hreq, by omega, by omega⟩

/-- C1 (amended): the Staffing Estimator returns the half-to-even rounding
of max(sales/sales_capacity, txns/txn_capacity) + fixed_staff — always
within 1/2 of the exact heuristic value — and on the spec scenario
(sales=150, txns=12, capacities 75 and 10, fixed_staff=1) it returns 3. -/
theorem c1_requiredStaff_round :
    (∀ (sales txns salesCap txnCap : ℚ) (fixed : ℤ),
      |(requiredStaff sales txns salesCap txnCap fixed : ℚ) -
        (max (sales / salesCap) (txns / txnCap) + fixed)| ≤ 1/2) ∧
    requiredStaff 150 12 75 10 1 = 3 := by
  constructor
  · intro sales txns salesCap txnCap fixed
    exact abs_roundHalfEven_sub_le _
  · norm_num [requiredStaff, roundHalfEven]

/-- C6: with non-negative demand and strictly positive capacities, the
required staff is at least the fixed staff. -/
theorem c6_required_ge_fixed (sales txns salesCap txnCap : ℚ) (fixed : ℤ)
    (hs : 0 ≤ sales) (_ht : 0 ≤ txns)
    (hsc : 0 < salesCap) (_htc : 0 < txnCap) :
    fixed ≤ requiredStaff sales txns salesCap txnCap fixed := by
  have hq : (fixed : ℚ) ≤ max (sales / salesCap) (txns / txnCap) + fixed := by
    have hnn : 0 ≤ sales / salesCap := div_nonneg hs hsc.le
    have := le_max_left (sales / salesCap) (txns / txnCap)
    linarith
  have hfl : fixed ≤ ⌊max (sales / salesCap) (txns / txnCap) + (fixed : ℚ)⌋ :=
    Int.le_floor.mpr hq
  exact hfl.trans (floor_le_roundHalfEven _)

/-- C6 witness: zero demand, unit capacities, one fixed staff member. -/
theorem c6_witness : (1:ℤ) ≤ requiredStaff 0 0 1 1 1 :=
  c6_required_ge_fixed 0 0 1 1 1 (le_refl 0) (le_refl 0) one_pos one_pos

/-! ## Helper lemmas about the allocator loop -/

theorem allocGo_map_fst {α : Type} (b : ℚ) (l : List (α × ℚ)) :
    (allocGo b l).map Prod.fst = l := by
  induction l generalizing b with
  | nil => rfl
  | cons c cs ih =>
    unfold allocGo
    split_ifs <;> simp [ih]

theorem allocGo_sum_le {α : Type} (b : ℚ) (l : List (α × ℚ)) (hb : 0 ≤ b) :
    ((allocGo b l).map Prod.snd).sum ≤ b := by
  induction l generalizing b with
  | nil => simpa [allocGo]
  | cons c cs ih =>
    unfold allocGo
    split_ifs with h1 h2
    · have := ih (b - c.2) (by linarith)
      simp only [List.map_cons, List.sum_cons]
      linarith
    · have := ih 0 le_rfl
      simp only [List.map_cons, List.sum_cons]
      linarith
    · have := ih b hb
      simp only [List.map_cons, List.sum_cons]
      linarith

theorem allocGo_bounds {α : Type} (b : ℚ) (l : List (α × ℚ)) (hb : 0 ≤ b)
    (hl : ∀ c ∈ l, 0 ≤ c.2) :
    ∀ p ∈ allocGo b l, 0 ≤ p.2 ∧ p.2 ≤ p.1.2 := by
  induction l generalizing b with
  | nil => simp [allocGo]
  | cons c cs ih =>
    intro p hp
    have hccs : ∀ x ∈ cs, 0 ≤ x.2 := fun x hx =>
      hl x (List.mem_cons_of_mem c hx)
    unfold allocGo at hp
    split_ifs at hp with h1 h2
    · rcases List.mem_cons.1 hp with rfl | hp2
      · exact ⟨hl c (List.mem_cons_self c cs), le_rfl⟩
      · exact ih (b - c.2) (by linarith) hccs p hp2
    · rcases List.mem_cons.1 hp with rfl | hp2
      · exact ⟨hb, (not_le.1 h1).le⟩
      · exact ih 0 le_rfl hccs p hp2
    · rcases List.mem_cons.1 hp with rfl | hp2
      · exact ⟨le_rfl, hl c (List.mem_cons_self c cs)⟩
      · exact ih b hb hccs p hp2

theorem allocGo_exhaust {α : Type} (b : ℚ) (l : List (α × ℚ))
    (hl : ∀ c ∈ l, 0 ≤ c.2) (hsum : (l.map Prod.snd).sum ≤ b) :
    ∀ p ∈ allocGo b l, p.2 = p.1.2 := by
  induction l generalizing b with
  | nil => simp [allocGo]
  | cons c cs ih =>
    intro p hp
    have hccs : ∀ x ∈ cs, 0 ≤ x.2 := fun x hx =>
      hl x (List.mem_cons_of_mem c hx)
    have hrest : 0 ≤ (cs.map Prod.snd).sum := by
      apply List.sum_nonneg
      intro x hx
      obtain ⟨y, hy, rfl⟩ := List.mem_map.1 hx
      exact hccs y hy
    have hsum2 : c.2 + (cs.map Prod.snd).sum ≤ b := by
      simpa using hsum
    have hc2 : c.2 ≤ b := by linarith
    unfold allocGo at hp
    rw [if_pos hc2] at hp
    rcases List.mem_cons.1 hp with rfl | hp2
    · rfl
    · exact ih (b - c.2) hccs (by linarith) p hp2

/-- C2: for a non-negative budget and non-negative requirements, the
allocator keeps every input cell (the output cells are a permutation of
the input), the assignments sum to at most the budget, and every
assignment lies between 0 and the cell's requirement. Cells reached after
budget exhaustion are emitted with assignment 0, not dropped. -/
theorem c2_allocator_budget_law {α : Type} (cells : List (α × ℚ))
    (budget : ℚ) (hb : 0 ≤ budget) (hc : ∀ c ∈ cells, 0 ≤ c.2) :
    ((allocate cells budget).map Prod.fst).Perm cells ∧
    ((allocate cells budget).map Prod.snd).sum ≤ budget ∧
    ∀ p ∈ allocate cells budget, 0 ≤ p.2 ∧ p.2 ≤ p.1.2 := by
  have hperm := List.perm_insertionSort (fun a b => b.2 ≤ a.2) cells
  refine ⟨?_, allocGo_sum_le _ _ hb, allocGo_bounds _ _ hb ?_⟩
  · rw [allocate, allocGo_map_fst]
    exact hperm
  · intro c hcm
    exact hc c (hperm.mem_iff.1 hcm)

/-- C2 witness: one cell of requirement 1 under a zero budget. -/
theorem c2_witness :
    ((allocate [("A", (1:ℚ))] 0).map Prod.snd).sum ≤ 0 :=
  (c2_allocator_budget_law [("A", (1:ℚ))] 0 (le_refl 0) (by simp)).2.1

/-- C3: when the total requirement fits the budget every cell is assigned
exactly its requirement, and the spec scenario — requirements
[(A,5),(B,3),(C,2)] with budget 6 — yields A=5, B=1, C=0. -/
theorem c3_exhaustion_law :
    (∀ (α : Type) (cells : List (α × ℚ)) (budget : ℚ),
      (∀ c ∈ cells, 0 ≤ c.2) → (cells.map Prod.snd).sum ≤ budget →
      ∀ p ∈ allocate cells budget, p.2 = p.1.2) ∧
    allocate [("A", (5:ℚ)), ("B", 3), ("C", 2)] 6 =
      [(("A", 5), 5), (("B", 3), 1), (("C", 2), 0)] := by
  constructor
  · intro α cells budget hc hsum
    have hperm := List.perm_insertionSort (fun a b => b.2 ≤ a.2) cells
    apply allocGo_exhaust
    · intro c hcm
      exact hc c (hperm.mem_iff.1 hcm)
    · rw [(hperm.map Prod.snd).sum_eq]
      exact hsum
  · norm_num [allocate, allocGo, List.insertionSort, List.orderedInsert]

/-- C3 witness: one cell of requirement 1 under a budget of 1 is assigned
its full requirement. -/
theorem c3_witness :
    ((("A", (1:ℚ)), (1:ℚ))).2 = ((("A", (1:ℚ)), (1:ℚ))).1.2 :=
  c3_exhaustion_law.1 String [("A", 1)] 1 (by simp) (by simp)
    (("A", 1), 1)
    (by norm_num [allocate, allocGo, List.insertionSort, List.orderedInsert])

/-! ## Normalizer claims -/

/-- One uploaded file containing two rows for the same timestamp
(date 0, hour 9) with metrics (100, 10) and (50, 5). -/
def dupInput : List (ℤ × List RawRow) :=
  [(0, [RawRow.mk (some 9) (some 100) none (some 10),
        RawRow.mk (some 9) (some 50) none (some 5)])]

/-- C4 counterexample: two rows sharing the timestamp (date 0, hour 9)
survive as two separate observations; their metrics are not summed into a
single (150, 15) observation. -/
theorem c4_counterexample :
    loadAndProcessData dupInput =
      [Row.mk 0 9 (some 100) none (some 10),
       Row.mk 0 9 (some 50) none (some 5)] ∧
    (loadAndProcessData dupInput).length ≠ 1 := by
  have h : loadAndProcessData dupInput =
      [Row.mk 0 9 (some 100) none (some 10),
       Row.mk 0 9 (some 50) none (some 5)] := by
    norm_num [loadAndProcessData, dupInput, processFile,
      List.insertionSort, List.orderedInsert, rowLE]
  exact ⟨h, by rw [h]; simp⟩

/-- C4 (amended): the combined table is a (Date, Hour)-sorted permutation
of all cleaned per-file rows — duplicate timestamps are retained as
separate observations, never merged — and the duplicate example yields the
two original rows, not a summed one. -/
theorem c4_no_dedup :
    (∀ files : List (ℤ × List RawRow),
      (loadAndProcessData files).Perm
        ((files.map fun f => processFile f.1 f.2).flatten)) ∧
    loadAndProcessData dupInput =
      [Row.mk 0 9 (some 100) none (some 10),
       Row.mk 0 9 (some 50) none (some 5)] := by
  constructor
  · intro files
    exact List.perm_insertionSort rowLE _
  · norm_num [loadAndProcessData, dupInput, processFile,
      List.insertionSort, List.orderedInsert, rowLE]

/-- One uploaded file whose single row has negative sales and negative
transaction count. -/
def negInput : List (ℤ × List RawRow) :=
  [(0, [RawRow.mk (some 9) (some (-50)) none (some (-3))])]

/-- C7 counterexample: a row with sales −50 and transactions −3 enters the
combined table with those negative values intact — they are not replaced
with zero. -/
theorem c7_counterexample :
    loadAndProcessData negInput =
      [Row.mk 0 9 (some (-50)) none (some (-3))] ∧
    (some (-50 : ℚ) ≠ some (0 : ℚ)) ∧ (some (-3 : ℤ) ≠ some (0 : ℤ)) := by
  refine ⟨?_, by norm_num, by norm_num⟩
  norm_num [loadAndProcessData, negInput, processFile,
    List.insertionSort, List.orderedInsert, rowLE]

/-- C7 (amended): the cleaning passes sales and transaction values through
unchanged — every input row with a present hour appears in the combined
table with its original metric values (negative ones included), and a row
with a missing sales value is kept with the value still missing; only rows
with a missing hour are dropped. -/
theorem c7_passthrough :
    (∀ (d : ℤ) (rows : List RawRow) (r : RawRow) (h : ℤ),
      r ∈ rows → r.hour = some h →
      Row.mk d h r.sales r.pct r.txns ∈ loadAndProcessData [(d, rows)]) ∧
    loadAndProcessData [(0, [RawRow.mk (some 9) none none (some 5)])] =
      [Row.mk 0 9 none none (some 5)] := by
  constructor
  · intro d rows r h hr hh
    have hmem : Row.mk d h r.sales r.pct r.txns ∈ processFile d rows := by
      apply List.mem_filterMap.2
      exact ⟨r, hr, by rw [hh]; rfl⟩
    have hflat : Row.mk d h r.sales r.pct r.txns ∈
        (([(d, rows)].map fun f => processFile f.1 f.2)).flatten := by
      simpa using hmem
    exact (List.perm_insertionSort rowLE _).mem_iff.2 hflat
  · norm_num [loadAndProcessData, processFile,
      List.insertionSort, List.orderedInsert, rowLE]

/-- C7 witness: the negative-valued row of the counterexample input is
retained verbatim in the combined table. -/
theorem c7_witness :
    Row.mk 0 9 (some (-50)) none (some (-3)) ∈
      loadAndProcessData [(0, [RawRow.mk (some 9) (some (-50)) none
        (some (-3))])] :=
  c7_passthrough.1 0 [RawRow.mk (some 9) (some (-50)) none (some (-3))]
    (RawRow.mk (some 9) (some (-50)) none (some (-3))) 9 (by simp) rfl

/-! ## Shift Aggregator claims -/

theorem le_natMax_of_mem {x : ℕ} {l : List ℕ} (h : x ∈ l) : x ≤ natMax l := by
  induction l with
  | nil => cases h
  | cons a as ih =>
    rcases List.mem_cons.1 h with rfl | h2
    · exact le_max_left _ _
    · exact (ih h2).trans (le_max_right _ _)

theorem natMax_eq_zero_or_mem (l : List ℕ) :
    natMax l = 0 ∨ natMax l ∈ l := by
  induction l with
  | nil => exact Or.inl rfl
  | cons a as ih =>
    rcases max_choice a (natMax as) with h | h
    · right
      rw [show natMax (a :: as) = max a (natMax as) from rfl, h]
      exact List.mem_cons_self a as
    · rw [show natMax (a :: as) = max a (natMax as) from rfl, h]
      rcases ih with h0 | hm
      · exact Or.inl h0
      · exact Or.inr (List.mem_cons_of_mem a hm)

/-- C8: the Shift Aggregator's value for a window [startH, endH) is the
maximum of the requirements among the covered hours — an upper bound on
every covered requirement that is itself attained by a covered requirement
unless it is 0 — and a window covering no hours yields 0. -/
theorem c8_aggregator_peak_law (reqs : List StaffingRequirement)
    (startH endH : ℕ) :
    (∀ r ∈ reqs, startH ≤ r.hour → r.hour < endH →
      r.staff ≤ shiftAggregate reqs startH endH) ∧
    (shiftAggregate reqs startH endH = 0 ∨
      ∃ r, r ∈ reqs ∧ startH ≤ r.hour ∧ r.hour < endH ∧
        r.staff = shiftAggregate reqs startH endH) ∧
    ((∀ r ∈ reqs, ¬(startH ≤ r.hour ∧ r.hour < endH)) →
      shiftAggregate reqs startH endH = 0) := by
  refine ⟨?_, ?_, ?_⟩
  · intro r hr h1 h2
    apply le_natMax_of_mem
    exact List.mem_map.2 ⟨r, List.mem_filter.2 ⟨hr, by
      simp only [decide_eq_true_eq]; exact ⟨h1, h2⟩⟩, rfl⟩
  · rcases natMax_eq_zero_or_mem ((reqs.filter fun r =>
      startH ≤ r.hour ∧ r.hour < endH).map StaffingRequirement.staff)
      with h0 | hm
    · exact Or.inl h0
    · right
      obtain ⟨r, hrf, hval⟩ := List.mem_map.1 hm
      have hmem := List.mem_filter.1 hrf
      have hcond := hmem.2
      simp only [decide_eq_true_eq] at hcond
      exact ⟨r, hmem.1, hcond.1, hcond.2, hval⟩
  · intro hnone
    have hfil : (reqs.filter fun r => startH ≤ r.hour ∧ r.hour < endH) =
        [] := by
      apply List.filter_eq_nil_iff.2
      intro r hr
      simp only [decide_eq_true_eq]
      exact hnone r hr
    rw [shiftAggregate, hfil]
    rfl

/-- C8 witness: one requirement of 2 staff at hour 9 inside the window
[8, 12) bounds the aggregate from below. -/
theorem c8_witness :
    2 ≤ shiftAggregate [StaffingRequirement.mk 0 9 2] 8 12 :=
  (c8_aggregator_peak_law [StaffingRequirement.mk 0 9 2] 8 12).1
    (StaffingRequirement.mk 0 9 2) (by simp) (by norm_num) (by norm_num)

/-! ## Demand Forecaster claim -/

/-- C9: the Forecaster is deterministic — two fits of the same series give
models whose predictions on the same future timestamps coincide. -/
theorem c9_forecast_deterministic (s : List (Timestamp × ℚ))
    (ts : List Timestamp) (m1 m2 : Model)
    (h1 : fitModel s = Except.ok m1) (h2 : fitModel s = Except.ok m2) :
    predictSeries m1 ts = predictSeries m2 ts := by
  rw [h1] at h2
  cases h2
  rfl

/-- C9 witness: a 24-observation constant series fits successfully and the
two resulting predictions agree. -/
theorem c9_witness :
    predictSeries ((List.replicate 24 (Timestamp.mk 0 0, (1:ℚ))).map
        fun p => (calendarFeatures p.1, p.2)) [Timestamp.mk 0 9] =
      predictSeries ((List.replicate 24 (Timestamp.mk 0 0, (1:ℚ))).map
        fun p => (calendarFeatures p.1, p.2)) [Timestamp.mk 0 9] :=
  c9_forecast_deterministic (List.replicate 24 (Timestamp.mk 0 0, 1))
    [Timestamp.mk 0 9] _ _ rfl rfl

/-! ## KPI guard claim -/

/-- C10: the average-transaction-value KPI is 0 when the total transaction
count is zero, and the division is evaluated only under the guard
0 < total_txns. -/
theorem c10_avg_txn_guard (rows : List Row) :
    (totalTxns rows = 0 → avgTxnValue rows = 0) ∧
    (0 < totalTxns rows →
      avgTxnValue rows = totalSales rows / (totalTxns rows : ℚ)) := by
  constructor
  · intro h
    rw [avgTxnValue, if_neg]
    omega
  · intro h
    rw [avgTxnValue, if_pos h]

/-- C10 witness: the empty dataset has zero transactions and KPI 0. -/
theorem c10_witness : avgTxnValue [] = 0 :=
  (c10_avg_txn_guard []).1 rfl

end SalesDash
